import Mathlib

/-!
# Query Safety Validation Engine — shallow embedding

A shallow embedding of the safety-check functions of
`src/handlers/transaction-handlers.ts` (pokt-network/mcp): the data model
(`SafetyCheckResult`, `SafetyConfig`), the dangerous-method classifier, the
block/log query validators and the natural-language query validator, together
with theorems settling the frozen claims about them.

Modelling conventions:
* JavaScript runtime values reaching the validators are modelled by `JSValue`
  (undefined, null, booleans, numbers, strings, plain objects).  Nested arrays
  are not modelled as values: the top-level `params` array is a `List JSValue`,
  and no validator reads anything of a nested array other than its
  truthiness, for which any truthy constructor stands in.  Symbols and
  BigInts are outside the model.
* JavaScript numbers are IEEE doubles; the validators only subtract and
  compare them.  A number is modelled as `NaN` or an exact integer (`JSNum`),
  which agrees with double arithmetic on the integer range |x| ≤ 2^53 that
  block numbers and configuration ceilings inhabit.
* `parseInt(s, 16)` never throws in JavaScript: on unparseable input it
  returns `NaN`.  The `try/catch` in `checkLogQuery` therefore has an
  unreachable `catch` branch for every value representable here, and the
  embedding is the body of the `try`.
* Case-insensitive regex matching (`/…/i.test`) is modelled for exactly the
  patterns occurring in the source, each of which is a sequence of literal
  runs separated by `.*`.  A JavaScript `.` does not match line terminators,
  so such a pattern matches a string iff some terminator-free segment of the
  string contains the (lowercased) literal runs in order without overlap;
  the matcher below finds them greedily left to right, which is complete for
  this pattern class.  Lowercasing is ASCII (`Char.toLower`), enough for the
  ASCII-only source patterns.
-/

/-- A JavaScript number: `NaN`, or an exact integer (doubles are exact on
the integer range the validators use). -/
inductive JSNum where
  | nan : JSNum
  | int : Int → JSNum
deriving DecidableEq

/-- A JavaScript runtime value, as far as the validators inspect one. -/
inductive JSValue where
  | undef : JSValue
  | null : JSValue
  | bool : Bool → JSValue
  | num : JSNum → JSValue
  | str : String → JSValue
  | obj : List (String × JSValue) → JSValue

/-- JavaScript truthiness (`if (v)`).  `undefined`, `null`, `false`, `NaN`,
`±0` and the empty string are falsy; every object is truthy. -/
def truthy : JSValue → Bool
  | JSValue.undef => false
  | JSValue.null => false
  | JSValue.bool b => b
  | JSValue.num JSNum.nan => false
  | JSValue.num (JSNum.int n) => !(n == 0)
  | JSValue.str s => !(s == "")
  | JSValue.obj _ => true

/-- Strict equality `v === true` against the boolean literal `true`. -/
def strictEqTrue : JSValue → Bool
  | JSValue.bool true => true
  | _ => false

/-- Strict equality `v === s` (and its negation `v !== s`) against a string
literal: true iff `v` is a string
with the same characters (a value of any other type is never strictly equal
to a string). -/
def strictEqStr (v : JSValue) (s : String) : Bool :=
  match v with
  | JSValue.str t => t == s
  | _ => false

/-- Property access `v[key]` on the values modelled here: a field of a plain
object, `undefined` otherwise (and `undefined` for an absent field). -/
def getField (v : JSValue) (key : String) : JSValue :=
  match v with
  | JSValue.obj fields =>
    match fields.find? (fun p => p.1 == key) with
    | some p => p.2
    | none => JSValue.undef
  | _ => JSValue.undef

/-- The JavaScript `||` operator: the left operand if truthy, else the right. -/
def jsOr (a b : JSValue) : JSValue :=
  if truthy a then a else b

/-- Whitespace accepted before the digits by `parseInt` (ECMAScript
`StrWhiteSpaceChar`: whitespace and line terminators). -/
def isJsWhitespace (c : Char) : Bool :=
  c == ' ' || c == '\t' || c == '\n' || c == '\r' ||
  c == '\x0b' || c == '\x0c' || c == '\u00A0' || c == '\uFEFF' ||
  c == '\u1680' || (('\u2000' ≤ c) && (c ≤ '\u200A')) ||
  c == '\u2028' || c == '\u2029' || c == '\u202F' || c == '\u205F' ||
  c == '\u3000'

/-- Hexadecimal digit test (`[0-9a-fA-F]`). -/
def isHexDigit (c : Char) : Bool :=
  (('0' ≤ c) && (c ≤ '9')) || (('a' ≤ c) && (c ≤ 'f')) || (('A' ≤ c) && (c ≤ 'F'))

/-- Numeric value of one hex digit. -/
def hexDigitVal (c : Char) : Int :=
  if ('0' ≤ c) && (c ≤ '9') then Int.ofNat (c.toNat - '0'.toNat)
  else if ('a' ≤ c) && (c ≤ 'f') then Int.ofNat (c.toNat - 'a'.toNat + 10)
  else if ('A' ≤ c) && (c ≤ 'F') then Int.ofNat (c.toNat - 'A'.toNat + 10)
  else 0

/-- Value of a hex digit string. -/
def hexListVal (cs : List Char) : Int :=
  cs.foldl (fun acc c => acc * 16 + hexDigitVal c) 0

/-- The embedding of `parseInt(s, 16)`: skip leading whitespace, read an optional sign, strip
an optional `0x`/`0X` prefix, then take the longest prefix of hex digits; no
digits means `NaN`.  `parseInt` never throws. -/
def parseIntHex (s : String) : JSNum :=
  let cs := s.data.dropWhile isJsWhitespace
  let signed : Int × List Char :=
    match cs with
    | '-' :: rest => (-1, rest)
    | '+' :: rest => (1, rest)
    | _ => (1, cs)
  let body : List Char :=
    match signed.2 with
    | '0' :: 'x' :: rest => rest
    | '0' :: 'X' :: rest => rest
    | l => l
  let digits := body.takeWhile isHexDigit
  if digits.isEmpty then JSNum.nan
  else JSNum.int (signed.1 * hexListVal digits)

/-- Decimal digit string to integer, `none` when a character is not a digit
or the string is empty. -/
def decListVal : List Char → Option Int
  | [] => none
  | cs =>
    if cs.all (fun c => ('0' ≤ c) && (c ≤ '9')) then
      some (cs.foldl (fun acc c => acc * 10 + Int.ofNat (c.toNat - '0'.toNat)) 0)
    else none

/-- String-to-number coercion (`ToNumber` on a string), for the
integer-valued forms: trimmed empty string is `0`, a `0x` form is hex, an
optionally signed digit string is decimal; fractional, exponent and
`Infinity` forms are outside the model and map to `NaN`.  (Unreachable from
the validators: their string operands go through `parseInt` instead.) -/
def strToNum (s : String) : JSNum :=
  let cs := (s.data.dropWhile isJsWhitespace).reverse.dropWhile isJsWhitespace |>.reverse
  match cs with
  | [] => JSNum.int 0
  | '0' :: 'x' :: rest =>
    if !rest.isEmpty && rest.all isHexDigit then JSNum.int (hexListVal rest) else JSNum.nan
  | '0' :: 'X' :: rest =>
    if !rest.isEmpty && rest.all isHexDigit then JSNum.int (hexListVal rest) else JSNum.nan
  | '-' :: rest => match decListVal rest with
    | some n => JSNum.int (-n)
    | none => JSNum.nan
  | '+' :: rest => match decListVal rest with
    | some n => JSNum.int n
    | none => JSNum.nan
  | rest => match decListVal rest with
    | some n => JSNum.int n
    | none => JSNum.nan

/-- Number coercion (`ToNumber`) of a value: `undefined → NaN`, `null → 0`,
booleans to `0`/`1`, strings via `strToNum`; the primitive form of a plain object
is `"[object Object]"`, which coerces to `NaN`. -/
def toNum : JSValue → JSNum
  | JSValue.undef => JSNum.nan
  | JSValue.null => JSNum.int 0
  | JSValue.bool b => JSNum.int (if b then 1 else 0)
  | JSValue.num n => n
  | JSValue.str s => strToNum s
  | JSValue.obj _ => JSNum.nan

/-- Subtraction `a - b` on numbers: `NaN` absorbs. -/
def numSub : JSNum → JSNum → JSNum
  | JSNum.int a, JSNum.int b => JSNum.int (a - b)
  | _, _ => JSNum.nan

/-- Comparison `a > m` of a number against an integer ceiling: false when `a` is `NaN`
(every comparison with `NaN` is false). -/
def numGtInt : JSNum → Int → Bool
  | JSNum.nan, _ => false
  | JSNum.int a, m => m < a

/-- Template-literal rendering of a number (`NaN` prints as `"NaN"`,
integer doubles print in decimal). -/
def numToString : JSNum → String
  | JSNum.nan => "NaN"
  | JSNum.int n => toString n

/-- The verdict type returned by every validator
(`SafetyCheckResult` in the source). -/
structure SafetyCheckResult where
  safe : Bool
  reason : Option String
  suggestion : Option String
deriving DecidableEq

/-- The safe verdict `{ safe: true }`: no reason, no suggestion. -/
def safeOk : SafetyCheckResult :=
  { safe := true, reason := none, suggestion := none }

/-- The configurable ceilings (`SafetyConfig` in the source). -/
structure SafetyConfig where
  maxTransactionsPerBlock : Int
  maxBlockRange : Int
  maxResponseSizeEstimate : Int
  allowBlocksWithTransactions : Bool

/-- The process-wide default configuration `DEFAULT_SAFETY_CONFIG`. -/
def DEFAULT_SAFETY_CONFIG : SafetyConfig :=
  { maxTransactionsPerBlock := 10
    maxBlockRange := 10
    maxResponseSizeEstimate := 500
    allowBlocksWithTransactions := false }

/-- The fixed dangerous-method set (`DANGEROUS_METHODS`). -/
def DANGEROUS_METHODS : List String :=
  [ "eth_getBlockByNumber"
  , "eth_getBlockByHash"
  , "eth_getLogs"
  , "eth_getTransactionReceipt"
  , "debug_traceTransaction"
  , "trace_block"
  , "trace_transaction" ]

/-- The classifier `isDangerousMethod`: exact, case-sensitive membership. -/
def isDangerousMethod (method : String) : Bool :=
  DANGEROUS_METHODS.contains method

/-- The embedding of `checkBlockQuery`: for the two block fetchers,
`params[1] === true`
requests full transactions and is rejected (first branch when the policy
flag disallows, second branch regardless); anything else is safe. -/
def checkBlockQuery (method : String) (params : List JSValue)
    (config : SafetyConfig) : SafetyCheckResult :=
  if method == "eth_getBlockByNumber" || method == "eth_getBlockByHash" then
    let includeTransactions := strictEqTrue (params.getD 1 JSValue.undef)
    if includeTransactions && !config.allowBlocksWithTransactions then
      { safe := false
        reason := some "Requesting blocks with full transactions is disabled to prevent context overflow"
        suggestion := some "Use eth_getBlockByNumber with false parameter to get block without transactions, or query specific transactions by hash" }
    else if includeTransactions then
      { safe := false
        reason := some "Blocks can contain 100+ transactions, causing session crashes"
        suggestion := some "Query specific transactions by hash instead, or use a block explorer API" }
    else safeOk
  else safeOk

/-- A block bound as a number: a string goes through `parseInt(·, 16)`
(the ternary on `typeof fromBlock`), any other value is coerced
by the subtraction. -/
def blockBoundNum : JSValue → JSNum
  | JSValue.str s => parseIntHex s
  | v => toNum v

/-- The guard of the range check in `checkLogQuery`:
`fromBlock && toBlock && toBlock !== "latest"`, with `toBlock` already
defaulted by `filter.toBlock || "latest"`. -/
def rangeCheckActive (filter : JSValue) : Bool :=
  let fromBlock := getField filter "fromBlock"
  let toBlock := jsOr (getField filter "toBlock") (JSValue.str "latest")
  truthy fromBlock && truthy toBlock && !(strictEqStr toBlock "latest")

/-- The value `range = to - from` as computed inside the range check. -/
def logRange (filter : JSValue) : JSNum :=
  let fromBlock := getField filter "fromBlock"
  let toBlock := jsOr (getField filter "toBlock") (JSValue.str "latest")
  numSub (blockBoundNum toBlock) (blockBoundNum fromBlock)

/-- The verdict returned when `range > config.maxBlockRange`. -/
def rangeExceededResult (range : JSNum) (ceiling : Int) : SafetyCheckResult :=
  { safe := false
    reason := some ("Block range " ++ numToString range ++ " exceeds maximum " ++ toString ceiling)
    suggestion := some "Reduce the block range or use pagination" }

/-- The verdict returned when the filter has neither address nor topics. -/
def unrestrictedResult : SafetyCheckResult :=
  { safe := false
    reason := some "Unrestricted log queries can return massive amounts of data"
    suggestion := some "Add address or topic filters to limit results" }

/-- The embedding of `checkLogQuery`: a falsy `params[0]` is safe; otherwise the range check
runs when both bounds are truthy and `toBlock` is not the string `"latest"`,
rejecting when `range > config.maxBlockRange`; then a filter with neither a
truthy `address` nor truthy `topics` is rejected; otherwise safe.
(`parseInt` never throws, so the `catch` branch of the source is unreachable on
the values modelled here and does not appear.) -/
def checkLogQuery (params : List JSValue) (config : SafetyConfig) : SafetyCheckResult :=
  let filter := params.getD 0 JSValue.undef
  if !truthy filter then safeOk
  else if rangeCheckActive filter && numGtInt (logRange filter) config.maxBlockRange then
    rangeExceededResult (logRange filter) config.maxBlockRange
  else if !truthy (getField filter "address") && !truthy (getField filter "topics") then
    unrestrictedResult
  else safeOk

/-- The test `method.startsWith(p)`: the first string begins with the second.
(Stated over the character lists, which coincides with `String.startsWith`.) -/
def strStartsWith (s p : String) : Bool :=
  p.data.isPrefixOf s.data

/-- The unconditional verdict for a dangerous method with no specialized
validator. -/
def genericDangerousResult (method : String) : SafetyCheckResult :=
  { safe := false
    reason := some ("Method " ++ method ++ " can return extremely large responses")
    suggestion := some "Use safer alternatives or fetch data from a block explorer API" }

/-- The embedding of `validateRPCCall`: a non-dangerous method is safe at once; a dangerous
one dispatches on its name — `eth_getBlock*` to `checkBlockQuery`,
`eth_getLogs` to `checkLogQuery` — and every other dangerous method is
blocked with the generic verdict. -/
def validateRPCCall (blockchain method : String) (params : List JSValue)
    (config : SafetyConfig) : SafetyCheckResult :=
  if isDangerousMethod method then
    if strStartsWith method "eth_getBlock" then checkBlockQuery method params config
    else if method == "eth_getLogs" then checkLogQuery params config
    else genericDangerousResult method
  else safeOk

/-- JavaScript line terminators, which `.` never matches. -/
def isLineTerminator (c : Char) : Bool :=
  c == '\n' || c == '\r' || c == '\u2028' || c == '\u2029'

/-- Split a character list at line terminators (terminators dropped). -/
def splitSegments : List Char → List (List Char)
  | [] => [[]]
  | c :: rest =>
    match splitSegments rest with
    | [] => [[]]
    | seg :: segs =>
      if isLineTerminator c then [] :: seg :: segs
      else (c :: seg) :: segs

/-- Remainder of `cs` after the leftmost occurrence of `lit`; `none` when
`lit` does not occur. -/
def dropAfterMatch (lit : List Char) : List Char → Option (List Char)
  | [] => if lit.isEmpty then some [] else none
  | c :: rest =>
    if lit.isPrefixOf (c :: rest) then some ((c :: rest).drop lit.length)
    else dropAfterMatch lit rest

/-- The literal runs occur in `cs` in order, without overlap (greedy
leftmost search, complete for literals separated by `.*`). -/
def containsInOrder : List (List Char) → List Char → Bool
  | [], _ => true
  | lit :: lits, cs =>
    match dropAfterMatch lit cs with
    | some rest => containsInOrder lits rest
    | none => false

/-- The `.test` of a case-insensitive regex whose pattern is the given literal
runs separated by `.*`: some terminator-free segment of the query contains
the runs in order. -/
def patternTest (lits : List String) (query : String) : Bool :=
  let litCs := lits.map (fun l => l.data.map Char.toLower)
  (splitSegments (query.data.map Char.toLower)).any (fun seg => containsInOrder litCs seg)

/-- The list `TRANSACTION_HISTORY_PATTERNS`, each regex as its literal runs. -/
def TRANSACTION_HISTORY_PATTERNS : List (List String) :=
  [ ["get", "transaction", "for", "address"]
  , ["transaction", "history"]
  , ["recent", "transactions"]
  , ["last", "transaction"]
  , ["latest", "transaction", "on", "address"]
  , ["address", "transactions"] ]

/-- The test `isTransactionHistoryQuery`: some history pattern matches. -/
def isTransactionHistoryQuery (query : String) : Bool :=
  TRANSACTION_HISTORY_PATTERNS.any (fun p => patternTest p query)

/-- The `dangerousPatterns` list local to `validateNaturalLanguageQuery`. -/
def dangerousQueryPatterns : List (List String) :=
  [ ["get all transactions"]
  , ["list all"]
  , ["fetch all"]
  , ["every transaction"]
  , ["all", "logs"] ]

/-- The verdict for a transaction-history query. -/
def transactionHistoryResult : SafetyCheckResult :=
  { safe := false
    reason := some "Transaction history queries require fetching multiple blocks with full transaction data, which causes context overflow"
    suggestion := some ("Instead:\n" ++
      "  • Query a specific transaction by hash if you know it\n" ++
      "  • Use a block explorer API (Etherscan, etc.) for transaction history\n" ++
      "  • Ask for current balance or state instead of history") }

/-- The verdict for an unbounded-scope query. -/
def unboundedResult : SafetyCheckResult :=
  { safe := false
    reason := some "Query requests potentially unbounded data"
    suggestion := some "Add specific limits, filters, or time ranges to your query" }

/-- The embedding of `validateNaturalLanguageQuery`: history patterns first, then the
unbounded-scope patterns (every unbounded match returns the same verdict, so
first-match equals any-match), else safe. -/
def validateNaturalLanguageQuery (query : String) (config : SafetyConfig) : SafetyCheckResult :=
  if isTransactionHistoryQuery query then transactionHistoryResult
  else if dangerousQueryPatterns.any (fun p => patternTest p query) then unboundedResult
  else safeOk

/-- Well-formedness of a verdict, as the data-model invariant states it: an
unsafe verdict carries a non-empty reason and a non-empty suggestion, a safe
verdict carries neither. -/
def verdictWellFormed (r : SafetyCheckResult) : Prop :=
  (r.safe = false →
    (∃ a, r.reason = some a ∧ a ≠ "") ∧ ∃ b, r.suggestion = some b ∧ b ≠ "") ∧
  (r.safe = true → r.reason = none ∧ r.suggestion = none)

/-- A concatenation beginning with a non-empty string is non-empty. -/
theorem append_ne_empty_left (s t : String) (hs : s ≠ "") : s ++ t ≠ "" := by
  intro h
  apply hs
  cases s with | mk d =>
  cases t with | mk e =>
  have hd : d ++ e = [] := congrArg String.data h
  rcases List.append_eq_nil.mp hd with ⟨h1, _⟩
  exact congrArg String.mk h1

/-- A value whose field reads back as a number is an object, hence truthy. -/
theorem truthy_of_getField_num (v : JSValue) (k : String) (x : JSNum)
    (h : getField v k = JSValue.num x) : truthy v = true := by
  cases v
  case obj => rfl
  all_goals simp [getField] at h

/-- C1: the code at the failing input of the claim.  With both bounds the
non-numeric string "zz" (and an address filter present), `checkLogQuery`
returns the safe verdict: `parseInt` yields `NaN` instead of throwing, the
`NaN` range fails the `>` comparison, and the cannot-validate-range branch
never fires — contradicting the claim (and the conservative intent of the
comment on the unreachable `catch`). -/
theorem checkLogQuery_unparseable_bounds_fall_through :
    checkLogQuery
      [JSValue.obj [("fromBlock", JSValue.str "zz"), ("toBlock", JSValue.str "zz"),
                    ("address", JSValue.str "0xabc")]]
      DEFAULT_SAFETY_CONFIG = safeOk := by decide

/-- C2: for either block fetcher, whenever `params[1]` is the boolean `true`
the verdict of `checkBlockQuery` is unsafe, for every configuration —
including one with `allowBlocksWithTransactions` set to true. -/
theorem checkBlockQuery_full_transactions_never_safe
    (method : String) (params : List JSValue) (config : SafetyConfig)
    (hm : method = "eth_getBlockByNumber" ∨ method = "eth_getBlockByHash")
    (hp : params.getD 1 JSValue.undef = JSValue.bool true) :
    (checkBlockQuery method params config).safe = false := by
  rcases hm with h | h <;> subst h <;>
    simp only [checkBlockQuery, hp] <;>
    rcases hc : config.allowBlocksWithTransactions <;>
    simp [strictEqTrue, hc, safeOk]

/-- Witness for C2 at a concrete input with the permissive configuration. -/
theorem checkBlockQuery_full_transactions_never_safe_witness :
    (checkBlockQuery "eth_getBlockByNumber" [JSValue.str "latest", JSValue.bool true]
      { DEFAULT_SAFETY_CONFIG with allowBlocksWithTransactions := true }).safe = false :=
  checkBlockQuery_full_transactions_never_safe _ _ _ (Or.inl rfl) rfl

/-- C3 counterexample: with no filter object at all (`params[0]` absent),
`checkLogQuery` returns the safe verdict, not the claimed unrestricted-query
rejection. -/
theorem checkLogQuery_no_filter_object_is_safe :
    checkLogQuery [] DEFAULT_SAFETY_CONFIG = safeOk := by decide

/-- C3 (amended): when the filter object is present (truthy) and supplies
neither a truthy address nor truthy topics, and the range branch does not
reject, the verdict is the unrestricted-query rejection — but when the
filter object is absent or falsy, `checkLogQuery` returns safe. -/
theorem checkLogQuery_unrestricted_needs_present_filter
    (params : List JSValue) (config : SafetyConfig) :
    (truthy (params.getD 0 JSValue.undef) = true →
     truthy (getField (params.getD 0 JSValue.undef) "address") = false →
     truthy (getField (params.getD 0 JSValue.undef) "topics") = false →
     (rangeCheckActive (params.getD 0 JSValue.undef) &&
       numGtInt (logRange (params.getD 0 JSValue.undef)) config.maxBlockRange) = false →
     checkLogQuery params config = unrestrictedResult) ∧
    (truthy (params.getD 0 JSValue.undef) = false →
     checkLogQuery params config = safeOk) := by
  constructor
  · intro hp ha ht hr
    simp only [checkLogQuery]
    rw [hp, hr, ha, ht]
    simp
  · intro hp
    simp only [checkLogQuery]
    rw [hp]
    simp

/-- Witness for C3 (amended): a filter with only `fromBlock` and a
`toBlock` of "latest" is rejected as unrestricted; a falsy `params[0]` is
safe. -/
theorem checkLogQuery_unrestricted_needs_present_filter_witness :
    checkLogQuery
      [JSValue.obj [("fromBlock", JSValue.num (JSNum.int 100)), ("toBlock", JSValue.str "latest")]]
      DEFAULT_SAFETY_CONFIG = unrestrictedResult ∧
    checkLogQuery [JSValue.undef] DEFAULT_SAFETY_CONFIG = safeOk :=
  ⟨(checkLogQuery_unrestricted_needs_present_filter _ _).1 (by decide) (by decide)
    (by decide) (by decide),
   (checkLogQuery_unrestricted_needs_present_filter _ _).2 (by decide)⟩

/-- C4 counterexample: with string bounds "5" and "15" (address present,
ceiling 10) the verdict is unsafe, while the number bounds 5 and 15 are
safe — the decimal strings are not parsed to the integers they denote, so
the verdicts differ. -/
theorem checkLogQuery_decimal_strings_differ_from_numbers :
    (checkLogQuery
      [JSValue.obj [("fromBlock", JSValue.str "5"), ("toBlock", JSValue.str "15"),
                    ("address", JSValue.str "0xabc")]]
      DEFAULT_SAFETY_CONFIG).safe = false ∧
    (checkLogQuery
      [JSValue.obj [("fromBlock", JSValue.num (JSNum.int 5)), ("toBlock", JSValue.num (JSNum.int 15)),
                    ("address", JSValue.str "0xabc")]]
      DEFAULT_SAFETY_CONFIG).safe = true := by decide

/-- C4 (amended): string bounds are parsed by `parseInt` with radix 16, so a
hex-prefixed string parses to its hex value but a bare digit string is also
read as hexadecimal ("15" parses to 21, not 15); the verdict is determined
by `parseInt(to,16) - parseInt(from,16)` against the ceiling. -/
theorem checkLogQuery_string_bounds_radix16
    (s t a : String) (config : SafetyConfig)
    (hs : s ≠ "") (ht : t ≠ "") (hlat : t ≠ "latest") (ha : a ≠ "") :
    checkLogQuery
      [JSValue.obj [("fromBlock", JSValue.str s), ("toBlock", JSValue.str t),
                    ("address", JSValue.str a)]] config =
      (if numGtInt (numSub (parseIntHex t) (parseIntHex s)) config.maxBlockRange then
        rangeExceededResult (numSub (parseIntHex t) (parseIntHex s)) config.maxBlockRange
      else safeOk) ∧
    parseIntHex "15" = JSNum.int 21 ∧ parseIntHex "0x15" = JSNum.int 21 ∧
    parseIntHex "5" = JSNum.int 5 := by
  refine ⟨?_, by decide, by decide, by decide⟩
  simp only [checkLogQuery, rangeCheckActive, logRange, getField, jsOr, truthy, blockBoundNum,
    strictEqStr, List.getD, List.find?]
  simp [hs, ht, hlat, ha]

/-- Witness for C4 (amended) at the string bounds "5" and "15". -/
theorem checkLogQuery_string_bounds_radix16_witness :
    checkLogQuery
      [JSValue.obj [("fromBlock", JSValue.str "5"), ("toBlock", JSValue.str "15"),
                    ("address", JSValue.str "0xabc")]] DEFAULT_SAFETY_CONFIG =
      (if numGtInt (numSub (parseIntHex "15") (parseIntHex "5")) DEFAULT_SAFETY_CONFIG.maxBlockRange then
        rangeExceededResult (numSub (parseIntHex "15") (parseIntHex "5")) DEFAULT_SAFETY_CONFIG.maxBlockRange
      else safeOk) ∧
    parseIntHex "15" = JSNum.int 21 ∧ parseIntHex "0x15" = JSNum.int 21 ∧
    parseIntHex "5" = JSNum.int 5 :=
  checkLogQuery_string_bounds_radix16 "5" "15" "0xabc" DEFAULT_SAFETY_CONFIG
    (by decide) (by decide) (by decide) (by decide)

/-- C5: a method outside the dangerous set is validated safe by
`validateRPCCall` for every blockchain, every params list and every
configuration — the parameters are never inspected. -/
theorem validateRPCCall_nondangerous_always_safe
    (blockchain method : String) (params : List JSValue) (config : SafetyConfig)
    (h : isDangerousMethod method = false) :
    validateRPCCall blockchain method params config = safeOk := by
  simp [validateRPCCall, h]

/-- Witness for C5 at `eth_blockNumber` with a junk params list. -/
theorem validateRPCCall_nondangerous_always_safe_witness :
    validateRPCCall "ethereum" "eth_blockNumber"
      [JSValue.bool true, JSValue.str "latest"] DEFAULT_SAFETY_CONFIG = safeOk :=
  validateRPCCall_nondangerous_always_safe _ _ _ _ (by decide)

/-- C6: a dangerous method that is none of the two block fetchers and not
`eth_getLogs` is blocked unconditionally by `validateRPCCall` with the
generic reason/suggestion pair, for every params list and configuration. -/
theorem validateRPCCall_unspecialized_dangerous_blocked
    (blockchain method : String) (params : List JSValue) (config : SafetyConfig)
    (hd : isDangerousMethod method = true)
    (h1 : method ≠ "eth_getBlockByNumber") (h2 : method ≠ "eth_getBlockByHash")
    (h3 : method ≠ "eth_getLogs") :
    validateRPCCall blockchain method params config = genericDangerousResult method := by
  have hmem : method = "eth_getBlockByNumber" ∨ method = "eth_getBlockByHash" ∨
      method = "eth_getLogs" ∨ method = "eth_getTransactionReceipt" ∨
      method = "debug_traceTransaction" ∨ method = "trace_block" ∨
      method = "trace_transaction" := by
    simpa [isDangerousMethod, DANGEROUS_METHODS, List.contains] using hd
  rcases hmem with h | h | h | h | h | h | h <;> subst h <;>
    first
    | exact absurd rfl h1
    | exact absurd rfl h2
    | exact absurd rfl h3
    | rfl

/-- Witness for C6 at `debug_traceTransaction`. -/
theorem validateRPCCall_unspecialized_dangerous_blocked_witness :
    validateRPCCall "ethereum" "debug_traceTransaction" [JSValue.str "0xdeadbeef"]
      DEFAULT_SAFETY_CONFIG = genericDangerousResult "debug_traceTransaction" :=
  validateRPCCall_unspecialized_dangerous_blocked _ _ _ _ (by decide)
    (by decide) (by decide) (by decide)

/-- C7 counterexample: with the integer bounds 0 and 1000000 (address
present, ceiling 10), the range 1000000 exceeds the ceiling and yet the
verdict is safe — the truthiness guard treats the block number 0 as an
absent bound and skips the range check. -/
theorem checkLogQuery_zero_fromBlock_skips_range_check :
    (checkLogQuery
      [JSValue.obj [("fromBlock", JSValue.num (JSNum.int 0)),
                    ("toBlock", JSValue.num (JSNum.int 1000000)),
                    ("address", JSValue.str "0xabc")]]
      DEFAULT_SAFETY_CONFIG).safe = true ∧
    DEFAULT_SAFETY_CONFIG.maxBlockRange < (1000000 : Int) - 0 := by decide

/-- C7 (amended): for a filter whose bounds are truthy (non-zero) concrete
integers and which carries an address or topics constraint, the verdict is
the range rejection (with the computed range and the ceiling in the reason)
exactly when `to - from` exceeds `config.maxBlockRange`, and safe
otherwise. -/
theorem checkLogQuery_int_bounds_threshold
    (params : List JSValue) (config : SafetyConfig) (n m : Int)
    (hf : getField (params.getD 0 JSValue.undef) "fromBlock" = JSValue.num (JSNum.int n))
    (htb : getField (params.getD 0 JSValue.undef) "toBlock" = JSValue.num (JSNum.int m))
    (hn : n ≠ 0) (hm : m ≠ 0)
    (hat : (truthy (getField (params.getD 0 JSValue.undef) "address") ||
            truthy (getField (params.getD 0 JSValue.undef) "topics")) = true) :
    checkLogQuery params config =
      if config.maxBlockRange < m - n then
        rangeExceededResult (JSNum.int (m - n)) config.maxBlockRange
      else safeOk := by
  have hobj := truthy_of_getField_num _ _ _ hf
  have hact : rangeCheckActive (params.getD 0 JSValue.undef) = true := by
    simp only [rangeCheckActive]
    rw [hf, htb]
    simp [truthy, jsOr, strictEqStr, hn, hm]
  have hlr : logRange (params.getD 0 JSValue.undef) = JSNum.int (m - n) := by
    simp only [logRange]
    rw [hf, htb]
    simp [jsOr, truthy, blockBoundNum, toNum, numSub, hm]
  simp only [checkLogQuery]
  rw [hobj, hact, hlr]
  by_cases hc : config.maxBlockRange < m - n
  · simp [numGtInt, hc]
  · have hnot : (!truthy (getField (params.getD 0 JSValue.undef) "address") &&
        !truthy (getField (params.getD 0 JSValue.undef) "topics")) = false := by
      cases ha2 : truthy (getField (params.getD 0 JSValue.undef) "address") <;>
        cases ht2 : truthy (getField (params.getD 0 JSValue.undef) "topics") <;>
        simp_all
    rw [hnot]
    simp [numGtInt, hc]

/-- Witness for C7 (amended) at the bounds 100 and 115 with ceiling 10. -/
theorem checkLogQuery_int_bounds_threshold_witness :
    checkLogQuery
      [JSValue.obj [("fromBlock", JSValue.num (JSNum.int 100)),
                    ("toBlock", JSValue.num (JSNum.int 115)),
                    ("address", JSValue.str "0xabc")]] DEFAULT_SAFETY_CONFIG =
      (if DEFAULT_SAFETY_CONFIG.maxBlockRange < (115 : Int) - 100 then
        rangeExceededResult (JSNum.int ((115 : Int) - 100)) DEFAULT_SAFETY_CONFIG.maxBlockRange
      else safeOk) :=
  checkLogQuery_int_bounds_threshold _ _ 100 115 rfl rfl
    (by decide) (by decide) (by decide)

/-- C8: pattern evaluation has a fixed order — a query matching a
transaction-history pattern yields the history rejection regardless of the
unbounded patterns; otherwise a match among the unbounded-scope patterns
yields the unbounded rejection; with no match in either set the verdict is
safe, and in particular the query "get the latest height for ethereum" is
safe. -/
theorem validateNaturalLanguageQuery_pattern_order
    (query : String) (config : SafetyConfig) :
    (isTransactionHistoryQuery query = true →
      validateNaturalLanguageQuery query config = transactionHistoryResult) ∧
    (isTransactionHistoryQuery query = false →
      (dangerousQueryPatterns.any (fun p => patternTest p query)) = true →
      validateNaturalLanguageQuery query config = unboundedResult) ∧
    (isTransactionHistoryQuery query = false →
      (dangerousQueryPatterns.any (fun p => patternTest p query)) = false →
      validateNaturalLanguageQuery query config = safeOk) ∧
    validateNaturalLanguageQuery "get the latest height for ethereum" config = safeOk := by
  refine ⟨fun h => by simp [validateNaturalLanguageQuery, h],
          fun h1 h2 => by simp [validateNaturalLanguageQuery, h1, h2],
          fun h1 h2 => by simp [validateNaturalLanguageQuery, h1, h2], ?_⟩
  rfl

/-- Witness for C8 on one query of each class. -/
theorem validateNaturalLanguageQuery_pattern_order_witness :
    validateNaturalLanguageQuery "What was the last transaction on vitalik.eth?"
      DEFAULT_SAFETY_CONFIG = transactionHistoryResult ∧
    validateNaturalLanguageQuery "list all logs for this contract"
      DEFAULT_SAFETY_CONFIG = unboundedResult ∧
    validateNaturalLanguageQuery "get the latest height for ethereum"
      DEFAULT_SAFETY_CONFIG = safeOk :=
  ⟨(validateNaturalLanguageQuery_pattern_order _ DEFAULT_SAFETY_CONFIG).1 (by decide),
   (validateNaturalLanguageQuery_pattern_order _ DEFAULT_SAFETY_CONFIG).2.1
     (by decide) (by decide),
   (validateNaturalLanguageQuery_pattern_order _ DEFAULT_SAFETY_CONFIG).2.2.1
     (by decide) (by decide)⟩

/-- A safe verdict with no reason and no suggestion is well-formed. -/
theorem verdictWellFormed_safeOk : verdictWellFormed safeOk := by
  constructor
  · intro h
    simp [safeOk] at h
  · intro _
    exact ⟨rfl, rfl⟩

/-- An unsafe verdict built from non-empty reason and suggestion strings is
well-formed. -/
theorem verdictWellFormed_unsafe (a b : String) (ha : a ≠ "") (hb : b ≠ "") :
    verdictWellFormed { safe := false, reason := some a, suggestion := some b } := by
  constructor
  · intro _
    exact ⟨⟨a, rfl, ha⟩, ⟨b, rfl, hb⟩⟩
  · intro h
    simp at h

/-- The range-rejection verdict is well-formed for every range and ceiling. -/
theorem verdictWellFormed_rangeExceeded (r : JSNum) (c : Int) :
    verdictWellFormed (rangeExceededResult r c) :=
  verdictWellFormed_unsafe _ _
    (append_ne_empty_left _ _ (append_ne_empty_left _ _ (append_ne_empty_left _ _ (by decide))))
    (by decide)

/-- The generic dangerous-method verdict is well-formed for every method
name. -/
theorem verdictWellFormed_generic (method : String) :
    verdictWellFormed (genericDangerousResult method) :=
  verdictWellFormed_unsafe _ _
    (append_ne_empty_left _ _ (append_ne_empty_left _ _ (by decide)))
    (by decide)

/-- Every verdict of `checkBlockQuery` is well-formed. -/
theorem verdictWellFormed_checkBlockQuery (method : String) (params : List JSValue)
    (config : SafetyConfig) : verdictWellFormed (checkBlockQuery method params config) := by
  simp only [checkBlockQuery]
  split
  · split
    · exact verdictWellFormed_unsafe _ _ (by decide) (by decide)
    · split
      · exact verdictWellFormed_unsafe _ _ (by decide) (by decide)
      · exact verdictWellFormed_safeOk
  · exact verdictWellFormed_safeOk

/-- Every verdict of `checkLogQuery` is well-formed. -/
theorem verdictWellFormed_checkLogQuery (params : List JSValue)
    (config : SafetyConfig) : verdictWellFormed (checkLogQuery params config) := by
  simp only [checkLogQuery]
  split
  · exact verdictWellFormed_safeOk
  · split
    · exact verdictWellFormed_rangeExceeded _ _
    · split
      · exact verdictWellFormed_unsafe _ _ (by decide) (by decide)
      · exact verdictWellFormed_safeOk

/-- Every verdict of `validateNaturalLanguageQuery` is well-formed. -/
theorem verdictWellFormed_validateNaturalLanguageQuery (query : String)
    (config : SafetyConfig) :
    verdictWellFormed (validateNaturalLanguageQuery query config) := by
  simp only [validateNaturalLanguageQuery]
  split
  · exact verdictWellFormed_unsafe _ _ (by decide) (by decide)
  · split
    · exact verdictWellFormed_unsafe _ _ (by decide) (by decide)
    · exact verdictWellFormed_safeOk

/-- C9: every verdict produced by any engine entry point, on every input and
configuration, satisfies the invariant: unsafe implies a non-empty reason
and a non-empty suggestion are present, safe implies both are absent. -/
theorem engine_verdicts_well_formed (blockchain method query : String)
    (params : List JSValue) (config : SafetyConfig) :
    verdictWellFormed (validateRPCCall blockchain method params config) ∧
    verdictWellFormed (checkBlockQuery method params config) ∧
    verdictWellFormed (checkLogQuery params config) ∧
    verdictWellFormed (validateNaturalLanguageQuery query config) := by
  refine ⟨?_, verdictWellFormed_checkBlockQuery method params config,
    verdictWellFormed_checkLogQuery params config,
    verdictWellFormed_validateNaturalLanguageQuery query config⟩
  simp only [validateRPCCall]
  split
  · split
    · exact verdictWellFormed_checkBlockQuery method params config
    · split
      · exact verdictWellFormed_checkLogQuery params config
      · exact verdictWellFormed_generic method
  · exact verdictWellFormed_safeOk

/-- C10: only the boolean literal `true` at `params[1]` counts as requesting
full transactions: with any other value there, or with any method other than
the two block fetchers, `checkBlockQuery` is safe for every configuration. -/
theorem checkBlockQuery_only_literal_true_blocks
    (method : String) (params : List JSValue) (config : SafetyConfig)
    (h : params.getD 1 JSValue.undef ≠ JSValue.bool true ∨
         (method ≠ "eth_getBlockByNumber" ∧ method ≠ "eth_getBlockByHash")) :
    checkBlockQuery method params config = safeOk := by
  have hit : ∀ v : JSValue, v ≠ JSValue.bool true → strictEqTrue v = false := by
    intro v hv
    cases v with
    | bool b =>
      cases b
      · rfl
      · exact absurd rfl hv
    | undef => rfl
    | null => rfl
    | num k => rfl
    | str s => rfl
    | obj fields => rfl
  rcases h with h | ⟨h1, h2⟩
  · simp only [checkBlockQuery]
    rw [hit _ h]
    simp
  · have hcond : (method == "eth_getBlockByNumber" || method == "eth_getBlockByHash") = false := by
      simp [h1, h2]
    simp [checkBlockQuery, hcond]

/-- Witness for C10: the string "true" at `params[1]` does not trigger the
block. -/
theorem checkBlockQuery_only_literal_true_blocks_witness :
    checkBlockQuery "eth_getBlockByNumber" [JSValue.str "latest", JSValue.str "true"]
      DEFAULT_SAFETY_CONFIG = safeOk :=
  checkBlockQuery_only_literal_true_blocks _ _ _
    (Or.inl (fun h => JSValue.noConfusion h))
